import Mathlib

/-!
# Verification of the BlogSpace server's blog routes

Shallow embedding of `src/server/routes/blog.js` and
`src/server/middleware/auth.js` of the BlogSpace repository
(Express + Mongoose blogging API), together with proofs of the
documented request/response contract: visibility and ownership rules,
view counting, like toggling, pagination clamping, search filtering,
`publishedAt` and `readTime` derivation, and optional authentication.

Ids (MongoDB ObjectIds) are modelled as `Nat`; timestamps as `Nat`.
Fields of the Blog document that no verified property mentions
(`media`, `mediaGallery`, `comments`, author profile data) are omitted
from the state; no route below reads or writes them before the point
where each verified property is decided.
-/

namespace BlogSpace

/-! ## JavaScript primitives used by the routes -/

/-- JS truthiness of an optional string parameter: `undefined` and the
empty string are falsy (`if (search)`, `if (filteredUpdates.content)`). -/
def jsTruthy : Option String → Bool
  | none => false
  | some s => s ≠ ""

/-- Characters matched by the JS regex class `\s` (as used in
`content.split(/\s+/)`): ASCII whitespace, NBSP, BOM and the Unicode
space separators / line terminators. -/
def isJsWhitespace (c : Char) : Bool :=
  c == ' ' || c == '\t' || c == '\n' || c == '\r' ||
  c.toNat == 0x0b || c.toNat == 0x0c || c.toNat == 0xa0 ||
  c.toNat == 0x1680 ||
  (0x2000 ≤ c.toNat && c.toNat ≤ 0x200a) ||
  c.toNat == 0x2028 || c.toNat == 0x2029 ||
  c.toNat == 0x202f || c.toNat == 0x205f ||
  c.toNat == 0x3000 || c.toNat == 0xfeff

/-- JS `String.prototype.split(/\s+/)` on a character list: the string is cut
at every maximal run of whitespace.  As in JS, a leading run produces a
leading empty field, a trailing run a trailing empty field, and the empty
string yields `[""]`.  `acc` holds the current field reversed, `inRun`
records whether the previous character was whitespace. -/
def splitWsGo : List Char → List Char → Bool → List String
  | [], acc, _ => [String.mk acc.reverse]
  | c :: rest, acc, inRun =>
    if isJsWhitespace c then
      if inRun then splitWsGo rest acc true
      else String.mk acc.reverse :: splitWsGo rest [] true
    else splitWsGo rest (c :: acc) false

/-- The route expression `content.split(/\s+/)` (blog.js lines 243 and 382). -/
def jsSplitWs (s : String) : List String :=
  splitWsGo s.toList [] false

/-- JS `Math.ceil(n / d)` for nonnegative integers (`d > 0` at every call
site: `readTime` divides by 200, `totalPages` by the clamped limit). -/
def ceilDiv (n d : Nat) : Nat := (n + d - 1) / d

/-- Value of the longest decimal-digit prefix of a character list,
`none` if that prefix is empty. -/
def digitsPrefixVal : List Char → Nat → Bool → Option Nat
  | [], acc, seen => if seen then some acc else none
  | c :: rest, acc, seen =>
    if c.isDigit then digitsPrefixVal rest (acc * 10 + (c.toNat - '0'.toNat)) true
    else if seen then some acc else none

/-- JS `parseInt(s)` with `none` standing for `NaN`: skip leading
whitespace, consume an optional sign, then the longest prefix of decimal
digits (the routes never pass `0x` inputs, so hexadecimal auto-detection
is irrelevant to every property below and omitted); `NaN` when no digit
follows. -/
def jsParseInt (s : String) : Option Int :=
  let cs := s.toList.dropWhile isJsWhitespace
  match cs with
  | '-' :: rest => (digitsPrefixVal rest 0 false).map (fun n => -(Int.ofNat n))
  | '+' :: rest => (digitsPrefixVal rest 0 false).map Int.ofNat
  | _ => (digitsPrefixVal cs 0 false).map Int.ofNat

/-- JS `Math.max a x` where `x` may be `NaN` (`none`): NaN propagates. -/
def jsMax (a : Int) (x : Option Int) : Option Int := x.map (fun v => max a v)

/-- JS `Math.min a x` where `x` may be `NaN` (`none`): NaN propagates. -/
def jsMin (a : Int) (x : Option Int) : Option Int := x.map (fun v => min a v)

/-! ## The search regex

`router.get('/')` builds `new RegExp(search, 'i')` / `{$regex: search,
$options: 'i'}` from the raw query string (blog.js lines 34-41): the
search string is interpreted as a regular expression, not quoted.  We
embed the fragment the equivalence and counterexample below need:
patterns of literal characters and the wildcard `.`; case-insensitivity
is modelled by `Char.toLower` on both sides (exact for ASCII, where all
concrete inputs below live). -/

/-- JS regex metacharacters: a pattern containing none of these (nor a
backslash) is matched purely literally / by `.` wildcards, so our
fragment matcher agrees with a full engine on it. -/
def isRegexMeta (c : Char) : Bool :=
  c == '^' || c == '$' || c == '\\' || c == '.' || c == '*' || c == '+' ||
  c == '?' || c == '(' || c == ')' || c == '[' || c == ']' ||
  c == '\x7b' || c == '\x7d' || c == '|'

/-- A pattern our matcher handles with full-engine fidelity: any
character that is not a metacharacter, plus the wildcard `.`. -/
def regexFragmentOk (pat : String) : Bool :=
  pat.toList.all (fun c => c == '.' || !isRegexMeta c)

/-- JS line terminators, which `.` does not match. -/
def isLineTerminator (c : Char) : Bool :=
  c == '\n' || c == '\r' || c.toNat == 0x2028 || c.toNat == 0x2029

/-- Case-insensitive comparison of a single pattern character against a
text character under the `i` flag. -/
def charIEq (p t : Char) : Bool := p.toLower == t.toLower

/-- The pattern matches at the head of the text: each pattern character
matches the corresponding text character (`.` matching any
non-line-terminator). -/
def matchHere : List Char → List Char → Bool
  | [], _ => true
  | _ :: _, [] => false
  | p :: ps, t :: ts =>
    (if p == '.' then !isLineTerminator t else charIEq p t) && matchHere ps ts

/-- Unanchored regex test (`/pat/i.test(text)` / Mongo `$regex` with
`$options: 'i'`): the pattern matches at some position of the text. -/
def searchFrom (pat : List Char) : List Char → Bool
  | [] => matchHere pat []
  | t :: ts => matchHere pat (t :: ts) || searchFrom pat ts

/-- The test `new RegExp(search, 'i')` tested against a field. -/
def regexTestI (pat text : String) : Bool :=
  searchFrom pat.toList text.toList

/-- Spec-side definition (§4.2: "case-insensitive substring match"):
the needle is a prefix of the haystack up to case. -/
def ciPrefixAt : List Char → List Char → Bool
  | [], _ => true
  | _ :: _, [] => false
  | n :: ns, h :: hs => (n.toLower == h.toLower) && ciPrefixAt ns hs

/-- Spec-side definition: the needle occurs as a case-insensitive
substring of the haystack.  Written from the spec's words, to be
compared with the route's regex-based filter. -/
def specCiContains (needle hay : String) : Bool :=
  go needle.toList hay.toList
where
  go (n : List Char) : List Char → Bool
    | [] => ciPrefixAt n []
    | h :: hs => ciPrefixAt n (h :: hs) || go n hs

/-! ## Lean-document id comparison (listing route)

The listing handler runs its query with `.lean()` (blog.js line 77), so
each blog's `likes` is a plain array of freshly deserialized BSON
`ObjectId` objects, and line 117 computes
`(blog.likes || []).includes(req.user.id)` with the plain
`Array.prototype.includes`, whose SameValueZero comparison performs no
type coercion.  `req.user.id` is the Mongoose `id` virtual: the hex
*string* of the user's `_id`. -/

/-- A JS value appearing in the like-membership comparisons: a BSON
`ObjectId` object wrapping raw id `raw`, or the hex string of raw id
`raw`. -/
inductive JsId where
  | objId (raw : Nat)
  | str (raw : Nat)
deriving DecidableEq

/-- JS strict equality (SameValueZero, as used by
`Array.prototype.includes`) on these values: two strings are equal iff
their text is equal; an `ObjectId` object and a string are never equal
(no coercion); two `ObjectId`s compare by object reference, and the
array elements here are freshly deserialized objects distinct from any
separately held reference, so the comparison is `false` (the routes
below only ever compare against a string, so this case is unexercised). -/
def jsStrictEq : JsId → JsId → Bool
  | .str a, .str b => a == b
  | _, _ => false

/-- Blog.js line 117: `(blog.likes || []).includes(req.user.id)` on a
lean document — plain `includes` of the id *string* in an array of
`ObjectId` objects. -/
def leanLikesIncludesIdString (likes : List Nat) (userId : Nat) : Bool :=
  (likes.map JsId.objId).any (fun e => jsStrictEq e (JsId.str userId))

/-! ## Data model

`models/Blog.js` itself is not part of the excerpted source; the fields
below are those the routes read and write (spec §3).  `publishedAt` is
`none` for `null`. -/

structure Blog where
  id : Nat
  title : String
  content : String
  excerpt : String
  category : String
  tags : List String
  status : String
  author : Nat
  likes : List Nat
  views : Nat
  readTime : Nat
  publishedAt : Option Nat
deriving DecidableEq, Repr

/-- The persistent store of blog documents. -/
abbrev Store := List Blog

/-- Store lookup `Blog.findById(id)`. -/
def findById (store : Store) (id : Nat) : Option Blog :=
  store.find? (fun b => b.id == id)

/-- Store write `findByIdAndUpdate` / a mutated document's `save()`: replace the
document(s) bearing `id` by `b`. -/
def saveBlog (store : Store) (id : Nat) (b : Blog) : Store :=
  store.map (fun x => if x.id == id then b else x)

/-- Store removal `Blog.findByIdAndDelete(id)`. -/
def deleteById (store : Store) (id : Nat) : Store :=
  store.filter (fun b => b.id ≠ id)

/-! ## Authentication middleware (`middleware/auth.js`) -/

/-- Outcome of `jwt.verify(token, secret)`: a decoded payload whose
`userId` field may be absent, or a thrown `JsonWebTokenError` /
`TokenExpiredError` (malformed token, bad signature, expiry). -/
inductive TokenVerify where
  | valid (userId : Option Nat)
  | invalid
deriving DecidableEq

/-- What a middleware does with the request: answer an error itself, or
call `next()` having attached at most one user identity. -/
inductive MwOutcome where
  | respond (status : Nat)
  | proceed (user : Option Nat)
deriving DecidableEq

/-- JS `String.prototype.replace(pat, '')` with a plain-string pattern:
remove the first occurrence only. -/
def jsReplaceFirst (s pat : String) : String :=
  match s.splitOn pat with
  | [] => s
  | [_] => s
  | a :: rest => a ++ String.intercalate pat rest

/-- Middleware `optionalAuth` (auth.js lines 61-77): strip `Bearer ` from the
header, and if the remaining token is truthy, verify it and look the
decoded `userId` up (`findById(undefined)` is `findOne({_id: null})`,
yielding no user when the payload has no `userId`).  Every failure path
— absent header, empty token, a throwing `jwt.verify`, an unknown or
absent user id — lands in the `catch`/fall-through and calls `next()`
with no user attached; the middleware never answers the request
itself. -/
def optionalAuth (header : Option String) (verify : String → TokenVerify)
    (users : List Nat) : MwOutcome :=
  match header with
  | none => .proceed none
  | some h =>
    let token := jsReplaceFirst h "Bearer "
    if token ≠ "" then
      match verify token with
      | .invalid => .proceed none
      | .valid none => .proceed none
      | .valid (some uid) =>
        if users.contains uid then .proceed (some uid) else .proceed none
    else .proceed none

/-! ## Blog detail (`router.get('/:id')`, blog.js lines 156-189) -/

/-- The test `!req.user || blogDoc.author._id.toString() !== req.user._id.toString()`:
the requester is anonymous or not the owning author. -/
def isNonOwner (reqUser : Option Nat) (authorId : Nat) : Bool :=
  match reqUser with
  | none => true
  | some uid => authorId ≠ uid

/-- Modelled from the spec: `Blog.incrementViews` lives in
`models/Blog.js`, which is not among the excerpted sources.  Spec §4.3:
"increment the view counter exactly once per request" — the document's
`views` grows by one and the change is persisted. -/
def incrementViews (b : Blog) : Blog := { b with views := b.views + 1 }

structure DetailResponse where
  status : Nat
  blog : Option Blog
  isLiked : Option Bool
deriving DecidableEq, Repr

/-- Route `GET /blogs/:id`.  Missing id → 404; non-published post requested by
a non-owner → 404; qualifying read (published, non-owner) increments the
view counter before the document is serialized; `isLiked` is attached
only for authenticated requesters, via
`blogDoc.likes.some(likeId => likeId.equals(req.user._id))` (value
comparison of ObjectIds). -/
def getBlogDetail (store : Store) (reqUser : Option Nat) (id : Nat) :
    DetailResponse × Store :=
  match findById store id with
  | none => ({ status := 404, blog := none, isLiked := none }, store)
  | some blogDoc =>
    if blogDoc.status != "published" && isNonOwner reqUser blogDoc.author then
      ({ status := 404, blog := none, isLiked := none }, store)
    else
      let qualifying := blogDoc.status == "published" && isNonOwner reqUser blogDoc.author
      let blogDoc' := if qualifying then incrementViews blogDoc else blogDoc
      let store' := if qualifying then saveBlog store id blogDoc' else store
      ({ status := 200, blog := some blogDoc',
         isLiked := reqUser.map (fun uid => blogDoc'.likes.contains uid) }, store')

/-! ## Like toggle (`router.post('/:id/like')`, blog.js lines 441-465) -/

/-- Modelled from the spec: `Blog.toggleLike` lives in `models/Blog.js`,
which is not among the excerpted sources.  Spec §4.5 / §3: "flip
membership of caller's id in the likes set (atomic per the store's
update semantics)", "toggling is idempotent per user (present → remove,
absent → add)"; the change is persisted and visible on the document. -/
def toggleLike (b : Blog) (uid : Nat) : Blog :=
  if b.likes.contains uid then { b with likes := b.likes.filter (fun x => x ≠ uid) }
  else { b with likes := b.likes ++ [uid] }

structure LikeResponse where
  status : Nat
  isLiked : Option Bool
  likeCount : Option Nat
deriving DecidableEq, Repr

/-- Route `POST /blogs/:id/like` (requires `auth`, so the caller id is
present).  Missing or unpublished post → 404; otherwise toggle and
answer with `blog.likes.includes(req.user._id)` — a Mongoose array's
`includes`, which compares ObjectIds by value — and the like count,
both read from the toggled document. -/
def likeBlog (store : Store) (callerUid : Nat) (id : Nat) :
    LikeResponse × Store :=
  match findById store id with
  | none => ({ status := 404, isLiked := none, likeCount := none }, store)
  | some blog =>
    if blog.status != "published" then
      ({ status := 404, isLiked := none, likeCount := none }, store)
    else
      let blog' := toggleLike blog callerUid
      ({ status := 200,
         isLiked := some (blog'.likes.contains callerUid),
         likeCount := some blog'.likes.length }, saveBlog store id blog')

/-! ## Blog listing (`router.get('/')`, blog.js lines 9-140) -/

/-- The request's query-string parameters; `none` is an absent
parameter.  The destructuring defaults of line 11 are applied at the
use sites. -/
structure ListQuery where
  page : Option String
  limit : Option String
  category : Option String
  search : Option String
  sort : Option String
  myPosts : Option String
deriving Repr

/-- Line 14: `Math.max(1, parseInt(page))`, with the destructuring
default `page = 1`; `none` is `NaN`. -/
def pageNumOf (q : ListQuery) : Option Int :=
  jsMax 1 (jsParseInt (q.page.getD "1"))

/-- Line 15: `Math.min(100, Math.max(1, parseInt(limit)))`, with the
destructuring default `limit = 10`; `none` is `NaN`. -/
def limitNumOf (q : ListQuery) : Option Int :=
  jsMin 100 (jsMax 1 (jsParseInt (q.limit.getD "10")))

/-- Lines 21-26: `myPosts === 'true'` with an authenticated caller
scopes to the caller's own posts of any status, otherwise only
published posts are in scope. -/
def scopeOk (q : ListQuery) (reqUser : Option Nat) (b : Blog) : Bool :=
  match q.myPosts, reqUser with
  | some "true", some uid => b.author == uid
  | _, _ => b.status == "published"

/-- Lines 29-31: `if (category && category !== 'all')` — a truthy,
non-`all` category narrows by exact match. -/
def categoryOk (q : ListQuery) (b : Blog) : Bool :=
  match q.category with
  | none => true
  | some c => if c ≠ "" && c ≠ "all" then b.category == c else true

/-- Lines 34-41: a truthy `search` adds the `$or` of case-insensitive
regex tests over title, excerpt, content and each tag. -/
def searchOk (q : ListQuery) (b : Blog) : Bool :=
  match q.search with
  | none => true
  | some s =>
    if s ≠ "" then
      regexTestI s b.title || regexTestI s b.excerpt || regexTestI s b.content ||
      b.tags.any (fun t => regexTestI s t)
    else true

/-- The Mongo query object built by lines 18-41, as a predicate on
documents. -/
def matchesQuery (q : ListQuery) (reqUser : Option Nat) (b : Blog) : Bool :=
  scopeOk q reqUser b && categoryOk q b && searchOk q b

/-- Mongo's ascending order on a nullable timestamp: `null` sorts below
every value. -/
def paLe : Option Nat → Option Nat → Bool
  | none, _ => true
  | some _, none => false
  | some x, some y => decide (x ≤ y)

/-- Lines 44-49: the sort key — `newest`/`oldest` by `publishedAt`
descending/ascending, `popular`/`trending` by `views` descending, any
other value falling back to `publishedAt` descending.  `blogBefore s a b`
reads "a may come before b". -/
def blogBefore (sortParam : String) (a b : Blog) : Bool :=
  if sortParam == "oldest" then paLe a.publishedAt b.publishedAt
  else if sortParam == "popular" || sortParam == "trending" then
    decide (b.views ≤ a.views)
  else paLe b.publishedAt a.publishedAt

/-- Insertion into a list sorted by `le`. -/
def insertBy (le : α → α → Bool) (x : α) : List α → List α
  | [] => [x]
  | y :: ys => if le x y then x :: y :: ys else y :: insertBy le x ys

/-- Insertion sort, modelling the store's `sort()` (every verified
property is order-independent, so any permutation realising the sort
key is a faithful model). -/
def sortBy (le : α → α → Bool) : List α → List α
  | [] => []
  | x :: xs => insertBy le x (sortBy le xs)

/-- Line 117: the annotation `isLiked` computed as
`req.user ? (blog.likes || []).includes(req.user.id) : false` on the
lean document (see `leanLikesIncludesIdString`). -/
def listIsLiked (reqUser : Option Nat) (b : Blog) : Bool :=
  match reqUser with
  | some uid => leanLikesIncludesIdString b.likes uid
  | none => false

/-- One post of the listing response. -/
structure ListedBlog where
  blog : Blog
  isLiked : Bool
deriving DecidableEq, Repr

structure ListResponse where
  status : Nat
  blogs : List ListedBlog
  total : Nat
  page : Int
  totalPages : Nat
deriving DecidableEq, Repr

/-- Route `GET /blogs` (lines 9-140): filter by the query, sort, skip
`(page-1)*limit`, take `limit`; `total` counts every matching document
(`countDocuments(query)`), `totalPages = Math.ceil(total/limit)`.
`none` when `parseInt` produced `NaN` for page or limit — the query then
reaches the driver with a `NaN` skip/limit option, behaviour outside
this model. -/
def listBlogs (store : Store) (reqUser : Option Nat) (q : ListQuery) :
    Option ListResponse :=
  match pageNumOf q, limitNumOf q with
  | some pageNum, some limitNum =>
    let filtered := store.filter (matchesQuery q reqUser)
    let sorted := sortBy (blogBefore (q.sort.getD "newest")) filtered
    let paged := (sorted.drop ((pageNum - 1) * limitNum).toNat).take limitNum.toNat
    let blogsWithLiked := paged.map (fun b =>
      { blog := b, isLiked := listIsLiked reqUser b })
    some { status := 200, blogs := blogsWithLiked, total := filtered.length,
           page := pageNum, totalPages := ceilDiv filtered.length limitNum.toNat }
  | _, _ => none

/-! ## Blog creation (`router.post('/')`, blog.js lines 191-288) -/

/-- The category enum of the validators (lines 202 and 305). -/
def categories : List String :=
  ["Technology", "Design", "Development", "Business", "Lifestyle", "Travel",
   "Food", "Health", "Education", "Entertainment", "Other"]

/-- The request body of a create (media and mediaGallery carry no
verified property and are omitted). -/
structure CreateBody where
  title : String
  content : String
  excerpt : String
  category : String
  tags : List String
  status : Option String
deriving Repr

/-- The express-validator chain of lines 192-233 on the modelled
fields: title 5-200 chars, content ≥ 10 chars, excerpt 10-300 chars,
category in the enum, at most 10 tags of 1-20 chars each, status (when
present) `draft` or `published`. -/
def validCreate (body : CreateBody) : Bool :=
  decide (5 ≤ body.title.length) && decide (body.title.length ≤ 200) &&
  decide (10 ≤ body.content.length) &&
  decide (10 ≤ body.excerpt.length) && decide (body.excerpt.length ≤ 300) &&
  categories.contains body.category &&
  decide (body.tags.length ≤ 10) &&
  body.tags.all (fun t => decide (1 ≤ t.length) && decide (t.length ≤ 20)) &&
  (match body.status with
   | none => true
   | some s => s == "draft" || s == "published")

/-- Line 243: `content.split(/\s+/).length`. -/
def wordCountOf (content : String) : Nat := (jsSplitWs content).length

structure CreateResponse where
  status : Nat
  blog : Option Blog
deriving DecidableEq, Repr

/-- Route `POST /blogs` (requires `auth`).  Validation failure → 400;
otherwise a new document is stored with the destructuring default
`status = 'draft'`, `readTime = Math.ceil(wordCount / 200)` (lines
243-244), `publishedAt` a timestamp exactly when created published
(line 266), and the schema defaults `likes = []`, `views = 0`. -/
def createBlog (store : Store) (callerUid : Nat) (body : CreateBody)
    (newId : Nat) (now : Nat) : CreateResponse × Store :=
  if !validCreate body then ({ status := 400, blog := none }, store)
  else
    let status := body.status.getD "draft"
    let blog : Blog := {
      id := newId, title := body.title, content := body.content,
      excerpt := body.excerpt, category := body.category,
      tags := body.tags, status := status, author := callerUid,
      likes := [], views := 0,
      readTime := ceilDiv (wordCountOf body.content) 200,
      publishedAt := if status == "published" then some now else none }
    ({ status := 201, blog := some blog }, store ++ [blog])

/-! ## Blog update and deletion (`router.put('/:id')`,
`router.delete('/:id')`, blog.js lines 290-439) -/

/-- A partial update body after the allowed-keys filter of lines
352-360 (any key outside the allow-list is dropped there); the modelled
fields are those carrying verified properties. -/
structure UpdateBody where
  title : Option String
  content : Option String
  excerpt : Option String
  category : Option String
  tags : Option (List String)
  status : Option String
deriving Repr

/-- The optional validator chain of lines 291-334 on the modelled
fields: each check applies only when the field is present; note the PUT
tags rule checks only the array size, with no per-item length rule. -/
def validUpdate (body : UpdateBody) : Bool :=
  (match body.title with
   | none => true
   | some t => decide (5 ≤ t.length) && decide (t.length ≤ 200)) &&
  (match body.content with
   | none => true
   | some c => decide (10 ≤ c.length)) &&
  (match body.excerpt with
   | none => true
   | some e => decide (10 ≤ e.length) && decide (e.length ≤ 300)) &&
  (match body.category with
   | none => true
   | some c => categories.contains c) &&
  (match body.tags with
   | none => true
   | some ts => decide (ts.length ≤ 10)) &&
  (match body.status with
   | none => true
   | some s => s == "draft" || s == "published")

structure PutResponse where
  status : Nat
  blog : Option Blog
deriving DecidableEq, Repr

/-- Route `PUT /blogs/:id` (requires `auth`).  Validation failure → 400,
missing id → 404, caller not the author → 403 (all before any write).
Otherwise lines 375-384 derive `publishedAt` (set on a transition to
published, cleared whenever the update sets draft) and recompute
`readTime` when a truthy `content` is present, and `findByIdAndUpdate`
overwrites exactly the provided fields. -/
def putBlog (store : Store) (callerUid : Nat) (id : Nat) (body : UpdateBody)
    (now : Nat) : PutResponse × Store :=
  if !validUpdate body then ({ status := 400, blog := none }, store)
  else
    match findById store id with
    | none => ({ status := 404, blog := none }, store)
    | some blog =>
      if blog.author ≠ callerUid then ({ status := 403, blog := none }, store)
      else
        let newPublishedAt : Option (Option Nat) :=
          if body.status == some "published" && blog.status != "published" then
            some (some now)
          else if body.status == some "draft" then some none
          else none
        let newReadTime : Option Nat :=
          match body.content with
          | some c => if c ≠ "" then some (ceilDiv (wordCountOf c) 200) else none
          | none => none
        let updated : Blog := {
          id := blog.id,
          title := body.title.getD blog.title,
          content := body.content.getD blog.content,
          excerpt := body.excerpt.getD blog.excerpt,
          category := body.category.getD blog.category,
          tags := body.tags.getD blog.tags,
          status := body.status.getD blog.status,
          author := blog.author,
          likes := blog.likes,
          views := blog.views,
          readTime := newReadTime.getD blog.readTime,
          publishedAt := newPublishedAt.getD blog.publishedAt }
        ({ status := 200, blog := some updated }, saveBlog store id updated)

structure DeleteResponse where
  status : Nat
deriving DecidableEq, Repr

/-- Route `DELETE /blogs/:id` (requires `auth`).  Missing id → 404, caller not
the author → 403 (before any write); otherwise the document is removed
(the best-effort external media deletion touches no blog document). -/
def deleteBlog (store : Store) (callerUid : Nat) (id : Nat) :
    DeleteResponse × Store :=
  match findById store id with
  | none => ({ status := 404 }, store)
  | some blog =>
    if blog.author ≠ callerUid then ({ status := 403 }, store)
    else ({ status := 200 }, deleteById store id)

/-! ## Optional-auth routes end to end -/

/-- Route `GET /blogs` behind `optionalAuth` (blog.js line 9). -/
def handleListing (header : Option String) (verify : String → TokenVerify)
    (users : List Nat) (store : Store) (q : ListQuery) : Option ListResponse :=
  match optionalAuth header verify users with
  | .respond _ => none
  | .proceed u => listBlogs store u q

/-- Route `GET /blogs/:id` behind `optionalAuth` (blog.js line 156). -/
def handleDetail (header : Option String) (verify : String → TokenVerify)
    (users : List Nat) (store : Store) (id : Nat) :
    Option (DetailResponse × Store) :=
  match optionalAuth header verify users with
  | .respond _ => none
  | .proceed u => some (getBlogDetail store u id)

/-! ## Concrete documents and queries used as witnesses -/

/-- A draft post by author 2. -/
def draftPost : Blog :=
  { id := 1, title := "Draft title", content := "draft content here",
    excerpt := "a draft excerpt", category := "Technology", tags := ["lean"],
    status := "draft", author := 2, likes := [], views := 0, readTime := 1,
    publishedAt := none }

/-- A published post by author 2, liked by user 5. -/
def publishedPost : Blog :=
  { id := 1, title := "the abc post!", content := "published content here",
    excerpt := "a post excerpt", category := "Technology", tags := ["tag"],
    status := "published", author := 2, likes := [5], views := 3, readTime := 1,
    publishedAt := some 50 }

/-- A listing request with no query parameters. -/
def emptyQuery : ListQuery :=
  { page := none, limit := none, category := none, search := none,
    sort := none, myPosts := none }

/-- An update body touching nothing. -/
def emptyUpdate : UpdateBody :=
  { title := none, content := none, excerpt := none, category := none,
    tags := none, status := none }

/-- A valid create body requesting publication. -/
def pubBody : CreateBody :=
  { title := "Hello World", content := "some longer content",
    excerpt := "a fine excerpt", category := "Technology", tags := [],
    status := some "published" }

/-- The same body as a draft. -/
def draftBody : CreateBody := { pubBody with status := some "draft" }

/-- An update that only publishes. -/
def publishUpdate : UpdateBody := { emptyUpdate with status := some "published" }

/-- An update that only reverts to draft. -/
def draftUpdate : UpdateBody := { emptyUpdate with status := some "draft" }

/-- Spec-side definition (§4.4: "`readTime = ceil(wordCount(content) /
200)`" with `wordCount` the number of whitespace-separated words):
count the maximal nonempty runs of non-whitespace characters.  Written
from the spec's words, to be compared with the route's
`split(/\s+/).length`. -/
def countWords : List Char → Bool → Nat
  | [], _ => 0
  | c :: rest, inWord =>
    if isJsWhitespace c then countWords rest false
    else (if inWord then 0 else 1) + countWords rest true

/-- The number of whitespace-separated words of a string (spec-side). -/
def specWordCount (s : String) : Nat := countWords s.toList false

/-- The listing response for `GET /blogs?search=abc` against a store
holding only `publishedPost`, used as a concrete witness below. -/
def sampleSearchResp : ListResponse :=
  { status := 200, blogs := [{ blog := publishedPost, isLiked := false }],
    total := 1, page := 1, totalPages := 1 }

/-! ## Helper lemmas -/

theorem findById_eq_id {store : Store} {id : Nat} {b : Blog}
    (h : findById store id = some b) : b.id = id := by
  have := List.find?_some h
  simpa using this

theorem findById_saveBlog (store : Store) (id : Nat) (b' : Blog)
    (h : b'.id = id) :
    findById (saveBlog store id b') id = (findById store id).map (fun _ => b') := by
  unfold findById saveBlog
  rw [List.find?_map]
  have hp : ((fun b => b.id == id) ∘ fun x => if x.id == id then b' else x)
      = (fun b => b.id == id) := by
    funext x
    by_cases hx : x.id = id <;> simp [Function.comp, hx, h]
  rw [hp]
  cases hfind : List.find? (fun b => b.id == id) store with
  | none => rfl
  | some c =>
    have hc := List.find?_some hfind
    simp only [Option.map]
    rw [if_pos hc]

theorem mem_insertBy {le : α → α → Bool} {x a : α} {l : List α} :
    a ∈ insertBy le x l ↔ a = x ∨ a ∈ l := by
  induction l with
  | nil => simp [insertBy]
  | cons y ys ih =>
    simp only [insertBy]
    split
    · simp
    · simp [ih]; tauto

theorem mem_sortBy {le : α → α → Bool} {a : α} {l : List α} :
    a ∈ sortBy le l ↔ a ∈ l := by
  induction l with
  | nil => simp [sortBy]
  | cons x xs ih => simp [sortBy, mem_insertBy, ih]

/-! ## C1: existence concealment on the detail route -/

/-- C1: A blog-detail request for an id matching no stored post, or
for a post that is not published when the requester is not the owning
author (anonymous requesters included), answers 404 — the same status
as a nonexistent id — and the detail route never answers 403 on any
input. -/
theorem detail_notFound_concealment (store : Store) (reqUser : Option Nat)
    (id : Nat)
    (h : findById store id = none ∨
         ∃ b, findById store id = some b ∧ b.status ≠ "published" ∧
           isNonOwner reqUser b.author = true) :
    (getBlogDetail store reqUser id).1.status = 404 ∧
    ∀ (store' : Store) (reqUser' : Option Nat) (id' : Nat),
      (getBlogDetail store' reqUser' id').1.status ≠ 403 := by
  constructor
  · rcases h with h | ⟨b, hb, hs, ho⟩
    · simp [getBlogDetail, h]
    · simp [getBlogDetail, hb, hs, ho]
  · intro s' u' i'
    unfold getBlogDetail
    cases hfind : findById s' i' with
    | none => simp
    | some b =>
      simp only []
      split
      · simp
      · simp

/-- Witness for C1: the draft post requested by non-owner user 5 is
concealed with 404, and the route never answers 403. -/
theorem detail_notFound_concealment_witness :
    (getBlogDetail [draftPost] (some 5) 1).1.status = 404 ∧
    ∀ (store' : Store) (reqUser' : Option Nat) (id' : Nat),
      (getBlogDetail store' reqUser' id').1.status ≠ 403 :=
  detail_notFound_concealment [draftPost] (some 5) 1
    (Or.inr ⟨draftPost, by decide, by decide, by decide⟩)

/-! ## C2: update and delete by a non-author -/

/-- C2 amended: A delete request, or an update request whose body
passes validation, by an authenticated caller who is not the post's
author answers 403; and whether or not the body validates, neither
request changes the store in any way. -/
theorem nonauthor_update_delete (store : Store) (caller id now : Nat)
    (body : UpdateBody) (b : Blog)
    (hfind : findById store id = some b) (hne : b.author ≠ caller) :
    (validUpdate body = true → (putBlog store caller id body now).1.status = 403) ∧
    (putBlog store caller id body now).2 = store ∧
    (deleteBlog store caller id).1.status = 403 ∧
    (deleteBlog store caller id).2 = store := by
  refine ⟨?_, ?_, ?_, ?_⟩
  · intro hval
    simp [putBlog, hval, hfind, hne]
  · unfold putBlog
    split
    · rfl
    · simp only [hfind]
      rw [if_pos hne]
  · simp [deleteBlog, hfind, hne]
  · simp [deleteBlog, hfind, hne]

/-- Witness for C2 (amended): user 5 attempting to delete or emptily
update author 2's draft post gets 403 and the store is untouched. -/
theorem nonauthor_update_delete_witness :
    (putBlog [draftPost] 5 1 emptyUpdate 7).1.status = 403 ∧
    (putBlog [draftPost] 5 1 emptyUpdate 7).2 = [draftPost] ∧
    (deleteBlog [draftPost] 5 1).1.status = 403 ∧
    (deleteBlog [draftPost] 5 1).2 = [draftPost] :=
  ⟨(nonauthor_update_delete [draftPost] 5 1 7 emptyUpdate draftPost
      (by decide) (by decide)).1 (by decide),
   (nonauthor_update_delete [draftPost] 5 1 7 emptyUpdate draftPost
      (by decide) (by decide)).2.1,
   (nonauthor_update_delete [draftPost] 5 1 7 emptyUpdate draftPost
      (by decide) (by decide)).2.2.1,
   (nonauthor_update_delete [draftPost] 5 1 7 emptyUpdate draftPost
      (by decide) (by decide)).2.2.2⟩

/-- Counterexample to C2 as stated: an update request by non-author
user 5 whose body fails validation (title of 3 characters) answers 400,
not the claimed 403 — validation runs before the ownership check.  The
store is still unchanged. -/
theorem nonauthor_update_counterexample :
    (putBlog [draftPost] 5 1
        { title := some "abc", content := none, excerpt := none,
          category := none, tags := none, status := none } 7).1.status = 400 ∧
    (putBlog [draftPost] 5 1
        { title := some "abc", content := none, excerpt := none,
          category := none, tags := none, status := none } 7).2 = [draftPost] := by
  exact ⟨by decide, by decide⟩

/-! ## C4: the views counter -/

/-- On a qualifying read the store afterwards holds the post with its
`views` grown by one. -/
theorem detail_qualifying_store (store : Store) (id : Nat) (b : Blog)
    (reqUser : Option Nat) (hfind : findById store id = some b)
    (hpub : b.status = "published") (hno : isNonOwner reqUser b.author = true) :
    (getBlogDetail store reqUser id).2
      = saveBlog store id { b with views := b.views + 1 } ∧
    findById (getBlogDetail store reqUser id).2 id
      = some { b with views := b.views + 1 } := by
  have h1 : (getBlogDetail store reqUser id).2
      = saveBlog store id { b with views := b.views + 1 } := by
    simp [getBlogDetail, hfind, hpub, hno, incrementViews]
  refine ⟨h1, ?_⟩
  rw [h1, findById_saveBlog _ _ _ (by simpa using findById_eq_id hfind), hfind]
  rfl

/-- C4: A detail read of a published post by a non-owner (anonymous
included) increments that post's `views` by exactly one — and a second
such read by the same requester increments again — while a read by the
owning author, or of a non-published post, leaves the store untouched. -/
theorem views_counter (store : Store) (id : Nat) (b : Blog)
    (reqUser : Option Nat) (hfind : findById store id = some b) :
    (b.status = "published" → isNonOwner reqUser b.author = true →
      (getBlogDetail store reqUser id).2
        = saveBlog store id { b with views := b.views + 1 } ∧
      findById (getBlogDetail store reqUser id).2 id
        = some { b with views := b.views + 1 } ∧
      findById (getBlogDetail (getBlogDetail store reqUser id).2 reqUser id).2 id
        = some { b with views := b.views + 2 }) ∧
    (isNonOwner reqUser b.author = false →
      (getBlogDetail store reqUser id).2 = store) ∧
    (b.status ≠ "published" → (getBlogDetail store reqUser id).2 = store) := by
  refine ⟨?_, ?_, ?_⟩
  · intro hpub hno
    obtain ⟨h1, h2⟩ := detail_qualifying_store store id b reqUser hfind hpub hno
    refine ⟨h1, h2, ?_⟩
    obtain ⟨-, h4⟩ := detail_qualifying_store (getBlogDetail store reqUser id).2
      id { b with views := b.views + 1 } reqUser h2 hpub hno
    simpa using h4
  · intro hno
    simp [getBlogDetail, hfind, hno]
  · intro hnp
    cases ho : isNonOwner reqUser b.author
    · simp [getBlogDetail, hfind, ho, hnp]
    · simp [getBlogDetail, hfind, ho, hnp]

/-- Witness for C4: an anonymous read of the published post takes its
views from 3 to 4, a second read to 5; and a read of the draft post by
anyone changes nothing. -/
theorem views_counter_witness :
    ((getBlogDetail [publishedPost] none 1).2
        = saveBlog [publishedPost] 1 { publishedPost with views := 4 } ∧
      findById (getBlogDetail [publishedPost] none 1).2 1
        = some { publishedPost with views := 4 } ∧
      findById (getBlogDetail (getBlogDetail [publishedPost] none 1).2 none 1).2 1
        = some { publishedPost with views := 5 }) ∧
    (getBlogDetail [draftPost] (some 9) 1).2 = [draftPost] := by
  constructor
  · exact (views_counter [publishedPost] 1 publishedPost none (by decide)).1
      (by decide) (by decide)
  · exact (views_counter [draftPost] 1 draftPost (some 9) (by decide)).2.2
      (by decide)

/-! ## C5: the publishedAt lifecycle -/

/-- C5: Creating published sets `publishedAt` to the (non-null)
creation time; creating as draft or with no status leaves it null; a
valid update by the author taking a draft post to published sets it,
and one setting status draft clears it. -/
theorem publishedAt_rules :
    (∀ (store : Store) (caller : Nat) (body : CreateBody) (newId now : Nat),
      validCreate body = true → body.status = some "published" →
      ((createBlog store caller body newId now).1.blog).map Blog.publishedAt
        = some (some now)) ∧
    (∀ (store : Store) (caller : Nat) (body : CreateBody) (newId now : Nat),
      validCreate body = true →
      (body.status = some "draft" ∨ body.status = none) →
      ((createBlog store caller body newId now).1.blog).map Blog.publishedAt
        = some none) ∧
    (∀ (store : Store) (caller id : Nat) (ub : UpdateBody) (now : Nat) (b : Blog),
      validUpdate ub = true → findById store id = some b → b.author = caller →
      ub.status = some "published" → b.status = "draft" →
      ((putBlog store caller id ub now).1.blog).map Blog.publishedAt
        = some (some now)) ∧
    (∀ (store : Store) (caller id : Nat) (ub : UpdateBody) (now : Nat) (b : Blog),
      validUpdate ub = true → findById store id = some b → b.author = caller →
      ub.status = some "draft" →
      ((putBlog store caller id ub now).1.blog).map Blog.publishedAt
        = some none) := by
  refine ⟨?_, ?_, ?_, ?_⟩
  · intro store caller body newId now hval hstat
    simp [createBlog, hval, hstat]
  · intro store caller body newId now hval hstat
    rcases hstat with h | h <;> simp [createBlog, hval, h]
  · intro store caller id ub now b hval hfind hauthor hstat hdraft
    simp [putBlog, hval, hfind, hauthor, hstat, hdraft]
  · intro store caller id ub now b hval hfind hauthor hstat
    simp [putBlog, hval, hfind, hauthor, hstat]

/-- Witness for C5: creating `pubBody` at time 11 stamps `publishedAt =
11`, creating `draftBody` leaves it null, publishing the draft post
stamps it, and reverting the published post clears it. -/
theorem publishedAt_rules_witness :
    ((createBlog [] 2 pubBody 3 11).1.blog).map Blog.publishedAt
      = some (some 11) ∧
    ((createBlog [] 2 draftBody 3 11).1.blog).map Blog.publishedAt
      = some none ∧
    ((putBlog [draftPost] 2 1 publishUpdate 11).1.blog).map Blog.publishedAt
      = some (some 11) ∧
    ((putBlog [publishedPost] 2 1 draftUpdate 11).1.blog).map Blog.publishedAt
      = some none :=
  ⟨publishedAt_rules.1 [] 2 pubBody 3 11 (by decide) (by decide),
   publishedAt_rules.2.1 [] 2 draftBody 3 11 (by decide) (Or.inl (by decide)),
   publishedAt_rules.2.2.1 [draftPost] 2 1 publishUpdate 11 draftPost
     (by decide) (by decide) (by decide) (by decide) (by decide),
   publishedAt_rules.2.2.2 [publishedPost] 2 1 draftUpdate 11 publishedPost
     (by decide) (by decide) (by decide) (by decide)⟩

/-! ## C3: the like toggle -/

theorem toggleLike_id (b : Blog) (uid : Nat) : (toggleLike b uid).id = b.id := by
  unfold toggleLike; split <;> rfl

theorem toggleLike_status (b : Blog) (uid : Nat) :
    (toggleLike b uid).status = b.status := by
  unfold toggleLike; split <;> rfl

/-- The filter in `toggleLike` is `List.erase` on duplicate-free likes. -/
theorem filter_ne_eq_erase (l : List Nat) (a : Nat) (h : l.Nodup) :
    l.filter (fun x => x ≠ a) = l.erase a := by
  rw [List.Nodup.erase_eq_filter h]
  apply List.filter_congr
  intro x _
  simp only [ne_eq, decide_not]
  rfl

theorem toggleLike_likes_of_mem (b : Blog) (uid : Nat) (h : uid ∈ b.likes) :
    (toggleLike b uid).likes = b.likes.filter (fun x => x ≠ uid) := by
  unfold toggleLike
  rw [if_pos (by simp [h])]

theorem toggleLike_likes_of_not_mem (b : Blog) (uid : Nat) (h : uid ∉ b.likes) :
    (toggleLike b uid).likes = b.likes ++ [uid] := by
  unfold toggleLike
  rw [if_neg (by simp [h])]

/-- Evaluation of the like route on a stored published post. -/
theorem likeBlog_eq (store : Store) (uid id : Nat) (b : Blog)
    (hfind : findById store id = some b) (hpub : b.status = "published") :
    likeBlog store uid id =
      ({ status := 200,
         isLiked := some ((toggleLike b uid).likes.contains uid),
         likeCount := some (toggleLike b uid).likes.length },
       saveBlog store id (toggleLike b uid)) := by
  simp [likeBlog, hfind, hpub]

theorem toggleLike_mem_self (b : Blog) (uid : Nat) :
    uid ∈ (toggleLike b uid).likes ↔ uid ∉ b.likes := by
  by_cases h : uid ∈ b.likes
  · rw [toggleLike_likes_of_mem b uid h]
    simp [h, List.mem_filter]
  · rw [toggleLike_likes_of_not_mem b uid h]
    simp [h]

/-- C3: For a stored published post and any authenticated caller,
one like toggle flips the caller's membership in the (duplicate-free)
likes set — removing the id and shrinking the count by one when present,
appending it when absent — leaves every other user's membership alone,
and reports the resulting `isLiked` and like count; toggling twice in
succession restores the likes set (as a set, with its original size),
the reported `isLiked`, and the reported count to their original
values. -/
theorem like_toggle_pair (store : Store) (uid id : Nat) (b : Blog)
    (hfind : findById store id = some b) (hpub : b.status = "published")
    (hnd : b.likes.Nodup) :
    ((likeBlog store uid id).1.status = 200 ∧
     (likeBlog store uid id).1.isLiked = some (!b.likes.contains uid) ∧
     (likeBlog store uid id).1.likeCount = some ((toggleLike b uid).likes.length) ∧
     (uid ∈ b.likes → (toggleLike b uid).likes.length = b.likes.length - 1 ∧
        uid ∉ (toggleLike b uid).likes) ∧
     (uid ∉ b.likes → (toggleLike b uid).likes = b.likes ++ [uid]) ∧
     (∀ x, x ≠ uid → (x ∈ (toggleLike b uid).likes ↔ x ∈ b.likes)) ∧
     findById (likeBlog store uid id).2 id = some (toggleLike b uid)) ∧
    ((likeBlog (likeBlog store uid id).2 uid id).1.isLiked
        = some (b.likes.contains uid) ∧
     (likeBlog (likeBlog store uid id).2 uid id).1.likeCount
        = some b.likes.length ∧
     findById (likeBlog (likeBlog store uid id).2 uid id).2 id
        = some (toggleLike (toggleLike b uid) uid) ∧
     (toggleLike (toggleLike b uid) uid).likes.length = b.likes.length ∧
     ∀ x, (x ∈ (toggleLike (toggleLike b uid) uid).likes ↔ x ∈ b.likes)) := by
  have hid : b.id = id := findById_eq_id hfind
  have heq1 := likeBlog_eq store uid id b hfind hpub
  have hfind1 : findById (saveBlog store id (toggleLike b uid)) id
      = some (toggleLike b uid) := by
    rw [findById_saveBlog _ _ _ (by rw [toggleLike_id]; exact hid), hfind]
    rfl
  have hpub1 : (toggleLike b uid).status = "published" := by
    rw [toggleLike_status]; exact hpub
  have heq2 := likeBlog_eq (saveBlog store id (toggleLike b uid)) uid id
    (toggleLike b uid) hfind1 hpub1
  have hfind2 : findById (saveBlog (saveBlog store id (toggleLike b uid)) id
      (toggleLike (toggleLike b uid) uid)) id
      = some (toggleLike (toggleLike b uid) uid) := by
    rw [findById_saveBlog _ _ _ (by rw [toggleLike_id, toggleLike_id]; exact hid),
        hfind1]
    rfl
  have hlen1 : uid ∈ b.likes →
      (toggleLike b uid).likes.length = b.likes.length - 1 := by
    intro h
    rw [toggleLike_likes_of_mem b uid h, filter_ne_eq_erase _ _ hnd,
        List.length_erase_of_mem h]
  have hmem2 : ∀ x, (x ∈ (toggleLike (toggleLike b uid) uid).likes ↔ x ∈ b.likes) := by
    intro x
    by_cases hm : uid ∈ b.likes
    · have h1 := toggleLike_likes_of_mem b uid hm
      have hnm1 : uid ∉ (toggleLike b uid).likes := by
        rw [h1]; simp [List.mem_filter]
      rw [toggleLike_likes_of_not_mem _ uid hnm1, h1]
      by_cases hx : x = uid
      · subst hx; simp [hm]
      · simp [List.mem_filter, hx]
    · have h1 := toggleLike_likes_of_not_mem b uid hm
      have hm1 : uid ∈ (toggleLike b uid).likes := by rw [h1]; simp
      rw [toggleLike_likes_of_mem _ uid hm1, h1, List.filter_append]
      have : b.likes.filter (fun x => x ≠ uid) = b.likes :=
        List.filter_eq_self.mpr (fun a ha => by
          simp only [ne_eq, decide_eq_true_eq]  -- decide (a ≠ uid) = true
          rintro rfl
          exact hm ha)
      simp [this]
      intro hxl heq
      exact hm (heq ▸ hxl)
  have hlen2 : (toggleLike (toggleLike b uid) uid).likes.length = b.likes.length := by
    by_cases hm : uid ∈ b.likes
    · have hnm1 : uid ∉ (toggleLike b uid).likes := by
        rw [toggleLike_likes_of_mem b uid hm]; simp [List.mem_filter]
      rw [toggleLike_likes_of_not_mem _ uid hnm1]
      rw [List.length_append, hlen1 hm]
      have hpos : 0 < b.likes.length :=
        List.length_pos.mpr (by intro h0; rw [h0] at hm; simp at hm)
      simp only [List.length_cons, List.length_nil]
      omega
    · have hm1 : uid ∈ (toggleLike b uid).likes := by
        rw [toggleLike_likes_of_not_mem b uid hm]; simp
      rw [toggleLike_likes_of_mem _ uid hm1, toggleLike_likes_of_not_mem b uid hm,
          List.filter_append]
      have : b.likes.filter (fun x => x ≠ uid) = b.likes :=
        List.filter_eq_self.mpr (fun a ha => by
          simp only [ne_eq, decide_eq_true_eq]
          rintro rfl
          exact hm ha)
      simp [this]
      intro a ha heq
      exact hm (heq ▸ ha)
  refine ⟨⟨?_, ?_, ?_, ?_, ?_, ?_, ?_⟩, ?_, ?_, ?_, hlen2, hmem2⟩
  · simp [heq1]
  · simp [heq1, toggleLike_mem_self, decide_not]
  · simp [heq1]
  · intro h
    refine ⟨hlen1 h, ?_⟩
    rw [toggleLike_likes_of_mem b uid h]
    simp [List.mem_filter]
  · exact toggleLike_likes_of_not_mem b uid
  · intro x hx
    by_cases hm : uid ∈ b.likes
    · rw [toggleLike_likes_of_mem b uid hm]
      simp [List.mem_filter, hx]
    · rw [toggleLike_likes_of_not_mem b uid hm]
      simp [hx]
  · rw [heq1]
    exact hfind1
  · simp only [heq1]
    simp [heq2, hmem2]
  · simp only [heq1]
    simp [heq2, hlen2]
  · simp only [heq1]
    simp only [heq2]
    exact hfind2

/-- Witness for C3: user 5 unlikes then re-likes the published post
(whose likes start as `[5]`); the first toggle reports `isLiked =
false`, count 0, the second restores likes `[5]`, `isLiked = true`,
count 1. -/
theorem like_toggle_pair_witness :
    ((likeBlog [publishedPost] 5 1).1.status = 200 ∧
     (likeBlog [publishedPost] 5 1).1.isLiked
        = some (!publishedPost.likes.contains 5) ∧
     (likeBlog [publishedPost] 5 1).1.likeCount
        = some ((toggleLike publishedPost 5).likes.length) ∧
     (5 ∈ publishedPost.likes →
        (toggleLike publishedPost 5).likes.length
          = publishedPost.likes.length - 1 ∧
        5 ∉ (toggleLike publishedPost 5).likes) ∧
     (5 ∉ publishedPost.likes →
        (toggleLike publishedPost 5).likes = publishedPost.likes ++ [5]) ∧
     (∀ x, x ≠ 5 → (x ∈ (toggleLike publishedPost 5).likes ↔
        x ∈ publishedPost.likes)) ∧
     findById (likeBlog [publishedPost] 5 1).2 1
        = some (toggleLike publishedPost 5)) ∧
    ((likeBlog (likeBlog [publishedPost] 5 1).2 5 1).1.isLiked
        = some (publishedPost.likes.contains 5) ∧
     (likeBlog (likeBlog [publishedPost] 5 1).2 5 1).1.likeCount
        = some publishedPost.likes.length ∧
     findById (likeBlog (likeBlog [publishedPost] 5 1).2 5 1).2 1
        = some (toggleLike (toggleLike publishedPost 5) 5) ∧
     (toggleLike (toggleLike publishedPost 5) 5).likes.length
        = publishedPost.likes.length ∧
     ∀ x, (x ∈ (toggleLike (toggleLike publishedPost 5) 5).likes ↔
        x ∈ publishedPost.likes)) :=
  like_toggle_pair [publishedPost] 5 1 publishedPost (by decide) (by decide)
    (by decide)

/-! ## C10: optional authentication never rejects -/

/-- C10: On the optional-auth routes, a bearer token that is
malformed / badly signed / expired (`jwt.verify` throws), carries no
`userId`, or references a nonexistent user never fails the request: the
middleware proceeds with no identity, the listing and detail responses
equal those of a request with no `Authorization` header at all, and the
middleware has no error-response path whatsoever. -/
theorem optionalAuth_bad_token (hdr : String) (verify : String → TokenVerify)
    (users : List Nat)
    (hbad : verify (jsReplaceFirst hdr "Bearer ") = TokenVerify.invalid ∨
            verify (jsReplaceFirst hdr "Bearer ") = TokenVerify.valid none ∨
            ∃ uid, verify (jsReplaceFirst hdr "Bearer ")
                = TokenVerify.valid (some uid) ∧ uid ∉ users) :
    optionalAuth (some hdr) verify users = MwOutcome.proceed none ∧
    (∀ (store : Store) (q : ListQuery),
      handleListing (some hdr) verify users store q
        = handleListing none verify users store q) ∧
    (∀ (store : Store) (id : Nat),
      handleDetail (some hdr) verify users store id
        = handleDetail none verify users store id) ∧
    (∀ (h : Option String) (v : String → TokenVerify) (us : List Nat) (s : Nat),
      optionalAuth h v us ≠ MwOutcome.respond s) := by
  have h1 : optionalAuth (some hdr) verify users = MwOutcome.proceed none := by
    simp only [optionalAuth]
    by_cases ht : jsReplaceFirst hdr "Bearer " = ""
    · rw [if_neg (by simp [ht])]
    · rw [if_pos (by simp [ht])]
      rcases hbad with hb | hb | ⟨uid, hb, hu⟩ <;> rw [hb]
      simp [hu]
  refine ⟨h1, ?_, ?_, ?_⟩
  · intro store q
    unfold handleListing
    rw [h1]
    rfl
  · intro store id
    unfold handleDetail
    rw [h1]
    rfl
  · intro h v us s
    cases h with
    | none => simp [optionalAuth]
    | some hh =>
      simp only [optionalAuth]
      split
      · split
        · simp
        · simp
        · split <;> simp
      · simp

/-- Witness for C10: a header whose token always fails verification is
treated exactly like an absent header. -/
theorem optionalAuth_bad_token_witness :
    optionalAuth (some "Bearer junk") (fun _ => TokenVerify.invalid) [7]
      = MwOutcome.proceed none ∧
    (∀ (store : Store) (q : ListQuery),
      handleListing (some "Bearer junk") (fun _ => TokenVerify.invalid) [7] store q
        = handleListing none (fun _ => TokenVerify.invalid) [7] store q) ∧
    (∀ (store : Store) (id : Nat),
      handleDetail (some "Bearer junk") (fun _ => TokenVerify.invalid) [7] store id
        = handleDetail none (fun _ => TokenVerify.invalid) [7] store id) ∧
    (∀ (h : Option String) (v : String → TokenVerify) (us : List Nat) (s : Nat),
      optionalAuth h v us ≠ MwOutcome.respond s) :=
  optionalAuth_bad_token "Bearer junk" (fun _ => TokenVerify.invalid) [7]
    (Or.inl rfl)

/-! ## C8: pagination clamping -/

/-- Counterexample to C8 as stated: `page=abc` makes `parseInt` return
`NaN` (modelled `none`), which `Math.max` propagates, so the effective
page is `NaN` — not an integer that is at least 1; nothing clamps it
into range. -/
theorem pagination_clamp_counterexample :
    pageNumOf { emptyQuery with page := some "abc" } = none ∧
    (pageNumOf { emptyQuery with page := some "abc" }).isSome = false := by
  exact ⟨by decide, by decide⟩

/-- C8 amended: Whenever the `page` and `limit` parameters (after
their defaults) parse to integers, the effective page is `max 1 page`,
at least 1, and the effective limit is `min 100 (max 1 limit)`, between
1 and 100; absent parameters default to 1 and 10; and the listing then
always answers 200, never an error. -/
theorem pagination_clamped (q : ListQuery) (np nl : Int)
    (hp : jsParseInt (q.page.getD "1") = some np)
    (hl : jsParseInt (q.limit.getD "10") = some nl) :
    pageNumOf q = some (max 1 np) ∧ (1 : Int) ≤ max 1 np ∧
    limitNumOf q = some (min 100 (max 1 nl)) ∧
    (1 : Int) ≤ min 100 (max 1 nl) ∧ min 100 (max 1 nl) ≤ 100 ∧
    (q.page = none → pageNumOf q = some 1) ∧
    (q.limit = none → limitNumOf q = some 10) ∧
    (∀ (store : Store) (reqUser : Option Nat),
      (listBlogs store reqUser q).isSome = true ∧
      ∀ resp, listBlogs store reqUser q = some resp → resp.status = 200) := by
  have hpage : pageNumOf q = some (max 1 np) := by
    simp [pageNumOf, jsMax, hp]
  have hlimit : limitNumOf q = some (min 100 (max 1 nl)) := by
    simp [limitNumOf, jsMax, jsMin, hl]
  refine ⟨hpage, le_max_left 1 np, hlimit, ?_, min_le_left 100 _, ?_, ?_, ?_⟩
  · exact le_min (by norm_num) (le_max_left 1 nl)
  · intro h0
    rw [pageNumOf, h0]
    decide
  · intro h0
    rw [limitNumOf, h0]
    decide
  · intro store reqUser
    constructor
    · simp only [listBlogs, hpage, hlimit]
      rfl
    · intro resp h
      simp only [listBlogs, hpage, hlimit] at h
      injection h with h2
      rw [← h2]

/-- Witness for C8 (amended): `page=0` is clamped up to 1 and
`limit=1000` down to 100; absent parameters would default; the listing
with these parameters answers 200. -/
theorem pagination_clamped_witness :
    pageNumOf { emptyQuery with page := some "0", limit := some "1000" }
      = some (max 1 0) ∧
    (1 : Int) ≤ max 1 0 ∧
    limitNumOf { emptyQuery with page := some "0", limit := some "1000" }
      = some (min 100 (max 1 1000)) ∧
    (1 : Int) ≤ min 100 (max 1 1000) ∧ min 100 (max 1 (1000 : Int)) ≤ 100 ∧
    ({ emptyQuery with page := some "0", limit := some "1000" }.page = none →
      pageNumOf { emptyQuery with page := some "0", limit := some "1000" }
        = some 1) ∧
    ({ emptyQuery with page := some "0", limit := some "1000" }.limit = none →
      limitNumOf { emptyQuery with page := some "0", limit := some "1000" }
        = some 10) ∧
    (∀ (store : Store) (reqUser : Option Nat),
      (listBlogs store reqUser
          { emptyQuery with page := some "0", limit := some "1000" }).isSome
        = true ∧
      ∀ resp, listBlogs store reqUser
          { emptyQuery with page := some "0", limit := some "1000" }
          = some resp → resp.status = 200) :=
  pagination_clamped { emptyQuery with page := some "0", limit := some "1000" }
    0 1000 (by decide) (by decide)

/-! ## C9: readTime derivation -/

/-- Relation between the route's `split(/\s+/)` field count and the
word count: exactly the nonempty fields are words (the discrepancy of
the two counts is the number of empty boundary fields). -/
theorem splitWsGo_words (cs : List Char) : ∀ (acc : List Char) (inRun : Bool),
    (inRun = true → acc = []) →
    ((splitWsGo cs acc inRun).filter (fun w => w ≠ "")).length
      = (if acc.isEmpty then 0 else 1) + countWords cs (!acc.isEmpty) := by
  induction cs with
  | nil =>
    intro acc inRun h
    cases acc with
    | nil => simp [splitWsGo, countWords]
    | cons a as => simp [splitWsGo, countWords, String.ext_iff]
  | cons c rest ih =>
    intro acc inRun h
    by_cases hc : isJsWhitespace c
    · cases inRun with
      | true =>
        have ha : acc = [] := h rfl
        subst ha
        simp only [splitWsGo, hc, if_true, countWords]
        rw [ih [] true (fun _ => rfl)]
        simp
      | false =>
        have hsp : splitWsGo (c :: rest) acc false
            = String.mk acc.reverse :: splitWsGo rest [] true := by
          simp [splitWsGo, hc]
        have hcw : countWords (c :: rest) (!acc.isEmpty) = countWords rest false := by
          simp [countWords, hc]
        rw [hsp, hcw, List.filter_cons]
        cases acc with
        | nil =>
          rw [if_neg (by simp)]
          rw [ih [] true (fun _ => rfl)]
          simp
        | cons a as =>
          rw [if_pos (by simp [String.ext_iff])]
          rw [List.length_cons, ih [] true (fun _ => rfl)]
          simp
          omega
    · have hsp : splitWsGo (c :: rest) acc inRun = splitWsGo rest (c :: acc) false := by
        cases inRun <;> simp [splitWsGo, hc]
      have hcw : countWords (c :: rest) (!acc.isEmpty)
          = (if (!acc.isEmpty) = true then 0 else 1) + countWords rest true := by
        simp [countWords, hc]
      rw [hsp, hcw, ih (c :: acc) false (by intro hco; cases hco)]
      cases acc <;> simp

/-- The nonempty fields of `content.split(/\s+/)` are exactly the
whitespace-separated words. -/
theorem splitCount_words (s : String) :
    ((jsSplitWs s).filter (fun w => w ≠ "")).length = specWordCount s := by
  have := splitWsGo_words s.toList [] false (by intro h; cases h)
  simpa [jsSplitWs, specWordCount] using this

/-- C9 amended: On a valid create, and on a valid update by the
author that carries a (truthy) `content`, the stored `readTime` is
`ceil(n / 200)` where `n` is the number of fields of
`content.split(/\s+/)`; an update without `content` leaves `readTime`
unchanged.  The field count agrees with the number of
whitespace-separated words except that a leading or trailing whitespace
run (or all-whitespace content) contributes empty fields: precisely,
the nonempty fields are the words. -/
theorem readTime_rules :
    (∀ (store : Store) (caller : Nat) (body : CreateBody) (newId now : Nat),
      validCreate body = true →
      ((createBlog store caller body newId now).1.blog).map Blog.readTime
        = some (ceilDiv (wordCountOf body.content) 200)) ∧
    (∀ (store : Store) (caller id : Nat) (ub : UpdateBody) (now : Nat)
        (b : Blog) (c : String),
      validUpdate ub = true → findById store id = some b → b.author = caller →
      ub.content = some c → c ≠ "" →
      ((putBlog store caller id ub now).1.blog).map Blog.readTime
        = some (ceilDiv (wordCountOf c) 200)) ∧
    (∀ (store : Store) (caller id : Nat) (ub : UpdateBody) (now : Nat) (b : Blog),
      validUpdate ub = true → findById store id = some b → b.author = caller →
      ub.content = none →
      ((putBlog store caller id ub now).1.blog).map Blog.readTime
        = some b.readTime) ∧
    (∀ s : String, ((jsSplitWs s).filter (fun w => w ≠ "")).length
        = specWordCount s) := by
  refine ⟨?_, ?_, ?_, splitCount_words⟩
  · intro store caller body newId now hval
    simp [createBlog, hval]
  · intro store caller id ub now b c hval hfind hauthor hcontent hc
    simp [putBlog, hval, hfind, hauthor, hcontent, hc]
  · intro store caller id ub now b hval hfind hauthor hcontent
    simp [putBlog, hval, hfind, hauthor, hcontent]

/-- Witness for C9 (amended): author 2 creates `pubBody` (3 words,
readTime 1); updating the draft post with a 2-word content recomputes
readTime to 1; an update without content keeps the stored readTime. -/
theorem readTime_rules_witness :
    ((createBlog [] 2 pubBody 3 11).1.blog).map Blog.readTime
      = some (ceilDiv (wordCountOf pubBody.content) 200) ∧
    ((putBlog [draftPost] 2 1
        { emptyUpdate with content := some "fresh content" } 11).1.blog).map
          Blog.readTime
      = some (ceilDiv (wordCountOf "fresh content") 200) ∧
    ((putBlog [draftPost] 2 1 emptyUpdate 11).1.blog).map Blog.readTime
      = some draftPost.readTime ∧
    ((jsSplitWs "fresh content").filter (fun w => w ≠ "")).length
      = specWordCount "fresh content" :=
  ⟨readTime_rules.1 [] 2 pubBody 3 11 (by decide),
   readTime_rules.2.1 [draftPost] 2 1
     { emptyUpdate with content := some "fresh content" } 11 draftPost
     "fresh content" (by decide) (by decide) (by decide) (by decide) (by decide),
   readTime_rules.2.2.1 [draftPost] 2 1 emptyUpdate 11 draftPost
     (by decide) (by decide) (by decide) (by decide),
   readTime_rules.2.2.2 "fresh content"⟩

/-- Counterexample to C9 as stated: content of ten spaces passes
validation (length 10), has zero whitespace-separated words, so the
claimed readTime is `ceil(0/200) = 0`; the code stores
`ceil(split-count/200) = ceil(2/200) = 1`, because splitting an
all-whitespace string yields two empty fields. -/
theorem readTime_counterexample :
    ((createBlog [] 1
        { title := "Valid Title", content := "          ",
          excerpt := "Some excerpt.", category := "Technology",
          tags := [], status := none } 1 0).1.blog).map Blog.readTime
      = some 1 ∧
    ceilDiv (specWordCount "          ") 200 = 0 := by
  exact ⟨by decide, by decide⟩


/-! ## C6 and C7: the listing response -/

/-- Evaluation of the listing route once page and limit are known. -/
theorem listBlogs_inv (store : Store) (reqUser : Option Nat) (q : ListQuery)
    (resp : ListResponse) (pn ln : Int)
    (hp : pageNumOf q = some pn) (hl : limitNumOf q = some ln)
    (hresp : listBlogs store reqUser q = some resp) :
    resp = { status := 200,
             blogs := (((sortBy (blogBefore (q.sort.getD "newest"))
                 (store.filter (matchesQuery q reqUser))).drop
                 ((pn - 1) * ln).toNat).take ln.toNat).map (fun b =>
               { blog := b, isLiked := listIsLiked reqUser b }),
             total := (store.filter (matchesQuery q reqUser)).length,
             page := pn,
             totalPages := ceilDiv (store.filter (matchesQuery q reqUser)).length
               ln.toNat } := by
  simp only [listBlogs, hp, hl] at hresp
  injection hresp with h2
  exact h2.symm

/-- C6: The annotation bug of blog.js line 117: on the lean listing
documents, `(blog.likes || []).includes(req.user.id)` compares the
caller's id *string* against BSON `ObjectId` objects under strict
equality, which never match — so (first conjunct) the computed flag is
false for every likes array and caller, (second and third) a concrete
listing by user 5 of a post that user 5 has liked still reports
`isLiked = false`, and (fourth) the annotation computed for any
authenticated caller on any document is false. -/
theorem listing_isLiked_bug :
    (∀ (likes : List Nat) (uid : Nat),
      leanLikesIncludesIdString likes uid = false) ∧
    (listBlogs [publishedPost] (some 5) emptyQuery).map
        (fun r => r.blogs.map (fun lb => lb.isLiked)) = some [false] ∧
    5 ∈ publishedPost.likes ∧
    (∀ (uid : Nat) (b : Blog), listIsLiked (some uid) b = false) := by
  have hfalse : ∀ (likes : List Nat) (uid : Nat),
      leanLikesIncludesIdString likes uid = false := by
    intro likes uid
    simp only [leanLikesIncludesIdString, List.any_eq_false]
    intro e he
    rw [List.mem_map] at he
    obtain ⟨raw, -, rfl⟩ := he
    simp [jsStrictEq]
  refine ⟨hfalse, by decide, by decide, ?_⟩
  intro uid b
  simp [listIsLiked, hfalse]

/-- On metacharacter-free patterns the fragment matcher at a fixed
position is literal case-insensitive prefix comparison. -/
theorem matchHere_literal (pat : List Char)
    (hpat : ∀ c ∈ pat, isRegexMeta c = false) :
    ∀ text, matchHere pat text = ciPrefixAt pat text := by
  induction pat with
  | nil => intro text; cases text <;> rfl
  | cons p ps ih =>
    intro text
    cases text with
    | nil => rfl
    | cons t ts =>
      have hmeta := hpat p (List.mem_cons_self p ps)
      have hp : (p == '.') = false := by
        by_cases hpd : p = '.'
        · subst hpd; simp [isRegexMeta] at hmeta
        · simp [hpd]
      simp only [matchHere, ciPrefixAt, hp, Bool.false_eq_true, if_false, charIEq]
      rw [ih (fun c hc => hpat c (List.mem_cons_of_mem p hc)) ts]

/-- On metacharacter-free patterns the unanchored scan is substring
containment. -/
theorem searchFrom_literal (ps : List Char)
    (hpat : ∀ c ∈ ps, isRegexMeta c = false) :
    ∀ ts, searchFrom ps ts = specCiContains.go ps ts := by
  intro ts
  induction ts with
  | nil => simp [searchFrom, specCiContains.go, matchHere_literal ps hpat]
  | cons t ts ih =>
    simp [searchFrom, specCiContains.go, matchHere_literal ps hpat, ih]

/-- On metacharacter-free patterns the unanchored regex test is
case-insensitive substring containment. -/
theorem regexTestI_literal (pat text : String)
    (hpat : ∀ c ∈ pat.toList, isRegexMeta c = false) :
    regexTestI pat text = specCiContains pat text :=
  searchFrom_literal pat.toList hpat text.toList

/-- C7 amended: A listing request carrying a search string
returns at most `limit` posts; every returned post matches the search
string interpreted as a case-insensitive unanchored regular expression
against title, excerpt, content, or some tag; `total` counts all
matching documents, independent of the requested page, and `totalPages
= ceil(total/limit)`; and for search strings free of regex
metacharacters the regex test coincides with case-insensitive substring
containment. -/
theorem search_listing (store : Store) (reqUser : Option Nat) (q : ListQuery)
    (s : String) (resp : ListResponse)
    (hs : q.search = some s)
    (hresp : listBlogs store reqUser q = some resp) :
    (∃ ln : Int, limitNumOf q = some ln ∧
       resp.blogs.length ≤ ln.toNat ∧
       resp.totalPages = ceilDiv resp.total ln.toNat) ∧
    (s ≠ "" → ∀ lb ∈ resp.blogs,
       (regexTestI s lb.blog.title || regexTestI s lb.blog.excerpt ||
        regexTestI s lb.blog.content ||
        lb.blog.tags.any (fun t => regexTestI s t)) = true) ∧
    resp.total = (store.filter (matchesQuery q reqUser)).length ∧
    (∀ (p' : Option String) (resp' : ListResponse),
       listBlogs store reqUser { q with page := p' } = some resp' →
       resp'.total = resp.total ∧ resp'.totalPages = resp.totalPages) ∧
    (∀ (pat text : String), (∀ c ∈ pat.toList, isRegexMeta c = false) →
       regexTestI pat text = specCiContains pat text) := by
  cases hp : pageNumOf q with
  | none =>
    cases hl : limitNumOf q <;> simp only [listBlogs, hp, hl] at hresp <;>
      simp at hresp
  | some pn =>
  cases hl : limitNumOf q with
  | none => simp only [listBlogs, hp, hl] at hresp; simp at hresp
  | some ln =>
  have hR := listBlogs_inv store reqUser q resp pn ln hp hl hresp
  subst hR
  refine ⟨⟨ln, rfl, ?_, rfl⟩, ?_, rfl, ?_, fun pat text h => regexTestI_literal pat text h⟩
  · simp only [List.length_map]
    exact List.length_take_le _ _
  · intro hs' lb hlb
    simp only [List.mem_map] at hlb
    obtain ⟨b, hb, rfl⟩ := hlb
    have hb2 : b ∈ store.filter (matchesQuery q reqUser) :=
      mem_sortBy.mp (List.mem_of_mem_drop (List.mem_of_mem_take hb))
    have hmatch : matchesQuery q reqUser b = true := (List.mem_filter.mp hb2).2
    have hsearch : searchOk q b = true := by
      simp only [matchesQuery, Bool.and_eq_true] at hmatch
      exact hmatch.2
    simp only [searchOk, hs] at hsearch
    rw [if_pos (by simp [hs'])] at hsearch
    exact hsearch
  · intro p' resp' h'
    cases hpp : pageNumOf { q with page := p' } with
    | none =>
      have hl2 : limitNumOf { q with page := p' } = some ln := hl
      simp only [listBlogs, hpp, hl2] at h'
      simp at h'
    | some pn2 =>
      have hl2 : limitNumOf { q with page := p' } = some ln := hl
      have hR' := listBlogs_inv store reqUser { q with page := p' } resp' pn2 ln
        hpp hl2 h'
      subst hR'
      exact ⟨rfl, rfl⟩

/-- Witness for C7 (amended): searching `abc` over a store holding the
published post returns exactly that post, which matches the regex in
its title; totals are page-independent; metacharacter-free search
strings reduce to substring containment. -/
theorem search_listing_witness :
    (∃ ln : Int,
       limitNumOf { emptyQuery with search := some "abc" } = some ln ∧
       sampleSearchResp.blogs.length ≤ ln.toNat ∧
       sampleSearchResp.totalPages = ceilDiv sampleSearchResp.total ln.toNat) ∧
    ("abc" ≠ "" → ∀ lb ∈ sampleSearchResp.blogs,
       (regexTestI "abc" lb.blog.title || regexTestI "abc" lb.blog.excerpt ||
        regexTestI "abc" lb.blog.content ||
        lb.blog.tags.any (fun t => regexTestI "abc" t)) = true) ∧
    sampleSearchResp.total = ([publishedPost].filter
        (matchesQuery { emptyQuery with search := some "abc" } none)).length ∧
    (∀ (p' : Option String) (resp' : ListResponse),
       listBlogs [publishedPost] none
         { { emptyQuery with search := some "abc" } with page := p' }
         = some resp' →
       resp'.total = sampleSearchResp.total ∧
       resp'.totalPages = sampleSearchResp.totalPages) ∧
    (∀ (pat text : String), (∀ c ∈ pat.toList, isRegexMeta c = false) →
       regexTestI pat text = specCiContains pat text) :=
  search_listing [publishedPost] none { emptyQuery with search := some "abc" }
    "abc" sampleSearchResp (by decide) (by decide)

/-- Counterexample to C7 as stated: the search string `a.c` is passed
to `new RegExp`, so `.` is a wildcard: the listing returns the post
titled "the abc post!" although none of its title, excerpt, content or
tags contains the literal substring `a.c`, case-insensitively. -/
theorem search_substring_counterexample :
    (listBlogs [publishedPost] none { emptyQuery with search := some "a.c" }).map
        (fun r => r.blogs.map (fun lb => lb.blog.title)) = some ["the abc post!"] ∧
    specCiContains "a.c" publishedPost.title = false ∧
    specCiContains "a.c" publishedPost.excerpt = false ∧
    specCiContains "a.c" publishedPost.content = false ∧
    publishedPost.tags.all (fun t => !specCiContains "a.c" t) = true := by
  exact ⟨by decide, by decide, by decide, by decide, by decide⟩


end BlogSpace
